import Mathlib

/-!
Shallow embedding of the chawa-farms game server core (src/app.py).

Modelling choices:
* Python dicts keyed by strings become association lists `List (String × α)`
  with `dictGet?` / `dictGetD` / `dictSet` mirroring `d.get(k)`, `d.get(k, v)`
  and `d[k] = v` (first-occurrence semantics; keys in all reachable states are
  unique, matching real dicts).
* `random.randint(500, 800)` values are passed in as explicit parameters
  (`price : ℤ` to the initializer, `fresh : String → ℤ` to `advance_day`).
* Python floats (`water_level`) are modelled as rationals `ℚ`; all the water
  arithmetic in the source is additions/subtractions of 0.2/0.4 with `min`/`max`
  clamps, which the claims state over exact arithmetic.
* The `TypeError`/`KeyError` crash paths (`crop_info['growth_time']` when
  `CROP_DATA.get` returned `None`; `CROP_DATA[crop_name]` in harvest) are
  modelled as `Option`/`Except Unit` failures.
* Python truthiness of `field['crop']` (`None` and `""` are falsy) is modelled
  by `truthyCrop`.
-/

namespace Farm

/-- `d.get(k)` on a Python dict: first binding of the key, if any. -/
def dictGet? {α : Type} : List (String × α) → String → Option α
  | [], _ => none
  | (k', v) :: rest, k => if k' = k then some v else dictGet? rest k

/-- `d.get(k, dflt)` on a Python dict. -/
def dictGetD {α : Type} (d : List (String × α)) (k : String) (dflt : α) : α :=
  (dictGet? d k).getD dflt

/-- `d[k] = v` on a Python dict: replace the binding if present, else append. -/
def dictSet {α : Type} : List (String × α) → String → α → List (String × α)
  | [], k, v => [(k, v)]
  | (k', v') :: rest, k, v =>
    if k' = k then (k', v) :: rest else (k', v') :: dictSet rest k v

/-- One region record from the `REGIONS` constant. -/
structure Region where
  specialty : String
  crops : List String
  livestock : List String
deriving DecidableEq

/-- The `REGIONS` game-data constant of app.py. -/
def REGIONS : List (String × Region) :=
  [ ("Morogoro", { specialty := "Rice and Maize farming.",
                   crops := ["Rice", "Maize", "Sunflower"],
                   livestock := ["Cattle", "Goats"] }),
    ("Arusha", { specialty := "Horticulture and Coffee.",
                 crops := ["Coffee", "Tomatoes", "Flowers"],
                 livestock := ["Dairy Cattle"] }),
    ("Dodoma", { specialty := "Grape and Sorghum cultivation.",
                 crops := ["Grapes", "Sorghum", "Millet"],
                 livestock := ["Goats", "Sheep"] }) ]

/-- One crop record of the `CROP_DATA` constant. -/
structure CropInfo where
  growth_time : ℤ
  yield : ℤ
deriving DecidableEq

/-- The `CROP_DATA` game-data constant of app.py. -/
def CROP_DATA : List (String × CropInfo) :=
  [("Maize", { growth_time := 5, yield := 10 })]

/-- One field record of a player state. -/
structure Field where
  id : ℤ
  crop : Option String
  status : String
  water_level : ℚ
  growth_stage : ℤ
  health : ℤ
deriving DecidableEq

/-- One livestock-group record of a player state. -/
structure LivestockGroup where
  type : String
  count : ℤ
  health : ℤ
  feed_level : ℚ
deriving DecidableEq

/-- One quest record of a player state. -/
structure Quest where
  id : String
  title : String
  description : String
  learning_point : String
  is_complete : Bool
deriving DecidableEq

/-- A player's full game state (the JSON record built by the initializer). -/
structure PlayerState where
  playerName : String
  region : String
  region_info : Option Region
  currency : String
  balance : ℤ
  current_day : ℤ
  fields : List Field
  livestock : List LivestockGroup
  inventory : List (String × ℤ)
  active_quests : List Quest
  market_prices : List (String × ℤ)
deriving DecidableEq

/-- `initialize_game_state(player_name, region_name)`; the value of
`random.randint(500, 800)` is passed in as `price`. -/
def initialize_game_state (player_name region_name : String) (price : ℤ) :
    PlayerState :=
  { playerName := player_name
    region := region_name
    region_info := dictGet? REGIONS region_name
    currency := "TZS"
    balance := 50000
    current_day := 1
    fields :=
      [ { id := 1, crop := none, status := "Fallow", water_level := 0.5,
          growth_stage := 0, health := 100 },
        { id := 2, crop := none, status := "Fallow", water_level := 0.5,
          growth_stage := 0, health := 100 } ]
    livestock := [{ type := "Goats", count := 5, health := 90, feed_level := 0.7 }]
    inventory :=
      [("Maize Seed", 10), ("Fertilizer", 5), ("Goat Feed", 20), ("Harvested Maize", 0)]
    active_quests :=
      [ { id := "main_quest_1", title := "Your First Farm",
          description := "Welcome to your farm in " ++ region_name ++
            "! Let's get started by planting some maize. Select Field 1 and choose 'Plant'.",
          learning_point := "Choosing the right crop for your region is key to success. " ++
            region_name ++ " is excellent for this.",
          is_complete := false } ]
    market_prices := [("Harvested Maize", price)] }

/-- Python truthiness of `field['crop']`: `None` and the empty string are falsy. -/
def truthyCrop : Option String → Bool
  | none => false
  | some s => decide (s ≠ "")

/-- The per-field body of the loop in `advance_day`. Returns `none` on the
`TypeError` raised by `crop_info['growth_time']` when `CROP_DATA.get` found
nothing. -/
def advanceField (f : Field) : Option Field :=
  if truthyCrop f.crop ∧ f.status = "Growing" then
    let f1 := if f.water_level > 0.4 then { f with growth_stage := f.growth_stage + 1 } else f
    let f2 := { f1 with water_level := max 0 (f1.water_level - 0.2) }
    match dictGet? CROP_DATA (f.crop.getD "") with
    | none => none
    | some ci =>
      some (if f2.growth_stage ≥ ci.growth_time then { f2 with status := "Ready to Harvest" } else f2)
  else
    some f

/-- The field loop of `advance_day`, over the whole field list. -/
def advanceFields : List Field → Option (List Field)
  | [] => some []
  | f :: rest =>
    match advanceField f, advanceFields rest with
    | some f', some rest' => some (f' :: rest')
    | _, _ => none

/-- `advance_day(player_state)`: bump the day, re-roll every market price
(the fresh `random.randint(500, 800)` values are given by `fresh`), then run
the growth/water/readiness loop over the fields. -/
def advance_day (fresh : String → ℤ) (s : PlayerState) : Option PlayerState :=
  let s1 := { s with
    current_day := s.current_day + 1
    market_prices := s.market_prices.map fun (p : String × ℤ) => (p.1, fresh p.1) }
  match advanceFields s1.fields with
  | none => none
  | some fs => some { s1 with fields := fs }

/-- A `for ... if ... break` loop over fields: transform the first field
satisfying `p` with `t`, keep the rest; `none` when no field matches. -/
def updateFirst (p : Field → Prop) [DecidablePred p] (t : Field → Field) :
    List Field → Option (List Field)
  | [] => none
  | f :: rest =>
    if p f then some (t f :: rest) else (updateFirst p t rest).map (f :: ·)

/-- The field loop of the `plant` branch: the first field with the requested
id and status Fallow gets Maize planted on it. `field_id` is the raw
`params.get('field_id')`, absent = `none`. -/
def plantFields (field_id : Option ℤ) : List Field → Option (List Field) :=
  updateFirst (fun f => field_id = some f.id ∧ f.status = "Fallow")
    (fun f => { f with crop := some "Maize", status := "Growing", growth_stage := 0 })

/-- The `plant` branch of `perform_action` on one player's state: requires a
positive "Maize Seed" count, then plants on the first Fallow field with the
requested id and decrements the seed count. `none` = no mutation, failure. -/
def doPlant (s : PlayerState) (field_id : Option ℤ) : Option PlayerState :=
  if dictGetD s.inventory "Maize Seed" 0 > 0 then
    match plantFields field_id s.fields with
    | none => none
    | some fs =>
      some { s with
        fields := fs
        inventory := dictSet s.inventory "Maize Seed"
          (dictGetD s.inventory "Maize Seed" 0 - 1) }
  else none

/-- The field loop of the `water` branch: the first field with the requested
id gets `water_level = min(1.0, water_level + 0.4)`. -/
def waterFields (field_id : Option ℤ) : List Field → Option (List Field) :=
  updateFirst (fun f => field_id = some f.id)
    (fun f => { f with water_level := min 1 (f.water_level + 0.4) })

/-- The `water` branch of `perform_action` on one player's state: waters the
first field with the requested id and charges 100 unconditionally. -/
def doWater (s : PlayerState) (field_id : Option ℤ) : Option PlayerState :=
  match waterFields field_id s.fields with
  | none => none
  | some fs => some { s with fields := fs, balance := s.balance - 100 }

/-- The field loop of the `harvest` branch. On the first field with the
requested id and status "Ready to Harvest": `CROP_DATA[crop_name]` raises
`KeyError` (modelled `.error ()`) when the crop is `None` or unknown;
otherwise the yield is added to the `"Harvested <crop>"` inventory entry and
the field is reset. Returns the new inventory, new field list, crop name and
yield (the latter two feed the success message). -/
def harvestFields (inv : List (String × ℤ)) (field_id : Option ℤ) :
    List Field → Except Unit (Option (List (String × ℤ) × List Field × String × ℤ))
  | [] => .ok none
  | f :: rest =>
    if field_id = some f.id ∧ f.status = "Ready to Harvest" then
      match f.crop with
      | none => .error ()
      | some c =>
        match dictGet? CROP_DATA c with
        | none => .error ()
        | some ci =>
          let item := "Harvested " ++ c
          .ok (some (dictSet inv item (dictGetD inv item 0 + ci.yield),
            { f with crop := none, status := "Fallow", growth_stage := 0 } :: rest,
            c, ci.yield))
    else
      match harvestFields inv field_id rest with
      | .error e => .error e
      | .ok none => .ok none
      | .ok (some (inv', rest', c, y)) => .ok (some (inv', f :: rest', c, y))

/-- The `harvest` branch of `perform_action` on one player's state.
`.ok none` = no matching ready field (failure, no mutation); `.error ()` =
the `KeyError` crash on an unknown crop. -/
def doHarvest (s : PlayerState) (field_id : Option ℤ) :
    Except Unit (Option (PlayerState × String × ℤ)) :=
  match harvestFields s.inventory field_id s.fields with
  | .error e => .error e
  | .ok none => .ok none
  | .ok (some (inv', fs, c, y)) =>
    .ok (some ({ s with inventory := inv', fields := fs }, c, y))

/-- The action types `perform_action` dispatches on; `other` is any
unrecognized action string. -/
inductive Action
  | next_day
  | plant (field_id : Option ℤ)
  | water (field_id : Option ℤ)
  | harvest (field_id : Option ℤ)
  | other (name : String)
deriving DecidableEq

/-- The (success, message) pair a dispatch produces. -/
structure Outcome where
  success : Bool
  message : String
deriving DecidableEq

/-- The in-memory `game_saves` store: player name to saved state. -/
abbrev Store := List (String × PlayerState)

/-- How Python's f-strings print a `params.get('field_id')` value. -/
def fmtId : Option ℤ → String
  | some n => toString n
  | none => "None"

/-- `perform_action` (the `/api/perform_action` handler) below the JSON
layer: look up the player (empty name is falsy, hence "not found"), dispatch
on the action, and on success write the full mutated state back to the store.
`.error ()` models an uncaught exception escaping the handler. The result
carries the store after the call, the (success, message) outcome, and
`new_state` when successful. -/
def perform_action (fresh : String → ℤ) (store : Store) (player_name : String)
    (act : Action) : Except Unit (Store × Outcome × Option PlayerState) :=
  if player_name = "" then .ok (store, ⟨false, "Player not found."⟩, none)
  else
    match dictGet? store player_name with
    | none => .ok (store, ⟨false, "Player not found."⟩, none)
    | some s =>
      match act with
      | .next_day =>
        match advance_day fresh s with
        | none => .error ()
        | some s' =>
          .ok (dictSet store player_name s', ⟨true, "A new day has dawned."⟩, some s')
      | .plant fid =>
        match doPlant s fid with
        | none => .ok (store, ⟨false, "Action not recognized."⟩, none)
        | some s' =>
          .ok (dictSet store player_name s',
            ⟨true, "You planted Maize in Field " ++ fmtId fid ++ "."⟩, some s')
      | .water fid =>
        match doWater s fid with
        | none => .ok (store, ⟨false, "Action not recognized."⟩, none)
        | some s' =>
          .ok (dictSet store player_name s',
            ⟨true, "You watered Field " ++ fmtId fid ++ ". It cost 100 TZS."⟩, some s')
      | .harvest fid =>
        match doHarvest s fid with
        | .error e => .error e
        | .ok none => .ok (store, ⟨false, "Action not recognized."⟩, none)
        | .ok (some (s', c, y)) =>
          .ok (dictSet store player_name s',
            ⟨true, "You harvested " ++ toString y ++ " units of " ++ c ++ "!"⟩, some s')
      | .other _ => .ok (store, ⟨false, "Action not recognized."⟩, none)

/-- One successful state transition of a single player's state, by any of the
four actions (failed actions leave the state untouched). -/
inductive Step (s s' : PlayerState) : Prop
  | next_day (fresh : String → ℤ) (h : advance_day fresh s = some s')
  | plant (fid : Option ℤ) (h : doPlant s fid = some s')
  | water (fid : Option ℤ) (h : doWater s fid = some s')
  | harvest (fid : Option ℤ) (c : String) (y : ℤ)
      (h : doHarvest s fid = .ok (some (s', c, y)))

/-- The player states reachable from a fresh game via plant / water /
harvest / next_day. -/
inductive Reachable : PlayerState → Prop
  | init (player_name region_name : String) (price : ℤ) :
      Reachable (initialize_game_state player_name region_name price)
  | step {s s' : PlayerState} : Reachable s → Step s s' → Reachable s'

/-! ### Association-list (Python dict) laws -/

theorem dictGet?_dictSet_self {α : Type} (d : List (String × α)) (k : String) (v : α) :
    dictGet? (dictSet d k v) k = some v := by
  induction d with
  | nil => simp [dictGet?, dictSet]
  | cons p rest ih =>
    by_cases h : p.1 = k
    · simp [dictGet?, dictSet, h]
    · simp [dictGet?, dictSet, h, ih]

theorem dictGet?_dictSet_ne {α : Type} (d : List (String × α)) (k k' : String) (v : α)
    (h : k' ≠ k) : dictGet? (dictSet d k v) k' = dictGet? d k' := by
  have hk : ¬ k = k' := fun e => h e.symm
  induction d with
  | nil => simp [dictGet?, dictSet, hk]
  | cons p rest ih =>
    obtain ⟨a, b⟩ := p
    by_cases hp : a = k
    · subst hp
      simp [dictGet?, dictSet, hk]
    · by_cases hp' : a = k'
      · simp [dictGet?, dictSet, hp, hp', h]
      · simp [dictGet?, dictSet, hp, hp', ih]

theorem dictGetD_dictSet_self {α : Type} (d : List (String × α)) (k : String)
    (v dflt : α) : dictGetD (dictSet d k v) k dflt = v := by
  simp [dictGetD, dictGet?_dictSet_self]

theorem dictGetD_dictSet_ne {α : Type} (d : List (String × α)) (k k' : String)
    (v dflt : α) (h : k' ≠ k) : dictGetD (dictSet d k v) k' dflt = dictGetD d k' dflt := by
  simp [dictGetD, dictGet?_dictSet_ne _ _ _ _ h]

/-! ### `updateFirst` (the plant / water field loops) -/

theorem updateFirst_eq_none_iff (p : Field → Prop) [DecidablePred p] (t : Field → Field)
    (l : List Field) : updateFirst p t l = none ↔ ∀ f ∈ l, ¬ p f := by
  induction l with
  | nil => simp [updateFirst]
  | cons f rest ih =>
    by_cases h : p f
    · simp [updateFirst, h]
    · simp [updateFirst, h, Option.map_eq_none', ih]

theorem updateFirst_isSome_iff (p : Field → Prop) [DecidablePred p] (t : Field → Field)
    (l : List Field) : (updateFirst p t l).isSome ↔ ∃ f ∈ l, p f := by
  rw [← Option.ne_none_iff_isSome, ne_eq, updateFirst_eq_none_iff]
  push_neg
  rfl

theorem updateFirst_eq_some (p : Field → Prop) [DecidablePred p] (t : Field → Field)
    (l l' : List Field) (h : updateFirst p t l = some l') :
    ∃ l1 f l2, l = l1 ++ f :: l2 ∧ (∀ g ∈ l1, ¬ p g) ∧ p f ∧
      l' = l1 ++ t f :: l2 := by
  induction l generalizing l' with
  | nil => simp [updateFirst] at h
  | cons f rest ih =>
    by_cases hp : p f
    · rw [updateFirst, if_pos hp, Option.some_inj] at h
      exact ⟨[], f, rest, rfl, by simp, hp, h.symm⟩
    · rw [updateFirst, if_neg hp, Option.map_eq_some'] at h
      obtain ⟨rest', h1, h2⟩ := h
      obtain ⟨l1, g, l2, e1, e2, e3, e4⟩ := ih rest' h1
      refine ⟨f :: l1, g, l2, by simp [e1], ?_, e3, by simp [← h2, e4]⟩
      intro x hx
      rcases List.mem_cons.mp hx with hx | hx
      · exact hx ▸ hp
      · exact e2 x hx

/-! ### `advanceField` characterization -/

theorem advanceField_not_growing {f : Field}
    (h : ¬ (truthyCrop f.crop = true ∧ f.status = "Growing")) :
    advanceField f = some f := by
  rw [advanceField, if_neg h]

theorem advanceField_eq_none_aux {f : Field}
    (hc : truthyCrop f.crop = true) (hs : f.status = "Growing")
    (hcd : dictGet? CROP_DATA (f.crop.getD "") = none) :
    advanceField f = none := by
  rw [advanceField, if_pos ⟨hc, hs⟩]
  simp only [hcd]

theorem advanceField_eq_aux {f : Field} {ci : CropInfo}
    (hc : truthyCrop f.crop = true) (hs : f.status = "Growing")
    (hcd : dictGet? CROP_DATA (f.crop.getD "") = some ci) :
    advanceField f = some
      (if (if f.water_level > 0.4 then f.growth_stage + 1 else f.growth_stage) ≥
          ci.growth_time then
        { f with
          growth_stage := if f.water_level > 0.4 then f.growth_stage + 1 else f.growth_stage
          water_level := max 0 (f.water_level - 0.2)
          status := "Ready to Harvest" }
      else
        { f with
          growth_stage := if f.water_level > 0.4 then f.growth_stage + 1 else f.growth_stage
          water_level := max 0 (f.water_level - 0.2) }) := by
  rw [advanceField, if_pos ⟨hc, hs⟩]
  by_cases hw : f.water_level > 0.4 <;>
    simp [hw, hcd]

theorem advanceField_growing {f f' : Field}
    (hc : truthyCrop f.crop = true) (hs : f.status = "Growing")
    (h : advanceField f = some f') :
    ∃ ci, dictGet? CROP_DATA (f.crop.getD "") = some ci ∧
      f'.growth_stage =
        (if f.water_level > 0.4 then f.growth_stage + 1 else f.growth_stage) ∧
      f'.water_level = max 0 (f.water_level - 0.2) ∧
      f'.crop = f.crop ∧ f'.id = f.id ∧ f'.health = f.health ∧
      f'.status =
        (if f'.growth_stage ≥ ci.growth_time then "Ready to Harvest" else "Growing") := by
  cases hcd : dictGet? CROP_DATA (f.crop.getD "") with
  | none =>
    rw [advanceField_eq_none_aux hc hs hcd] at h
    exact Option.noConfusion h
  | some ci =>
    refine ⟨ci, rfl, ?_⟩
    by_cases hw : f.water_level > 0.4
    · by_cases hg : f.growth_stage + 1 ≥ ci.growth_time
      · have := advanceField_eq_aux hc hs hcd
        simp only [if_pos hw, if_pos hg] at this
        rw [this, Option.some_inj] at h
        subst h
        simp [hw, hg, hs]
      · have := advanceField_eq_aux hc hs hcd
        simp only [if_pos hw, if_neg hg] at this
        rw [this, Option.some_inj] at h
        subst h
        simp [hw, hg, hs]
    · by_cases hg : f.growth_stage ≥ ci.growth_time
      · have := advanceField_eq_aux hc hs hcd
        simp only [if_neg hw, if_pos hg] at this
        rw [this, Option.some_inj] at h
        subst h
        simp [hw, hg, hs]
      · have := advanceField_eq_aux hc hs hcd
        simp only [if_neg hw, if_neg hg] at this
        rw [this, Option.some_inj] at h
        subst h
        simp [hw, hg, hs]

theorem advanceField_eq_none_iff (f : Field) :
    advanceField f = none ↔
      truthyCrop f.crop = true ∧ f.status = "Growing" ∧
        dictGet? CROP_DATA (f.crop.getD "") = none := by
  constructor
  · intro h
    by_cases hg : truthyCrop f.crop = true ∧ f.status = "Growing"
    · refine ⟨hg.1, hg.2, ?_⟩
      rw [advanceField, if_pos hg] at h
      cases hcd : dictGet? CROP_DATA (f.crop.getD "") with
      | none => rfl
      | some ci => rw [hcd] at h; simp at h
    · rw [advanceField_not_growing hg] at h; simp at h
  · rintro ⟨hc, hs, hcd⟩
    rw [advanceField, if_pos ⟨hc, hs⟩, hcd]

/-! ### `advanceFields` characterization -/

theorem advanceFields_some {l l' : List Field} (h : advanceFields l = some l') :
    List.Forall₂ (fun f f' => advanceField f = some f') l l' := by
  induction l generalizing l' with
  | nil =>
    rw [advanceFields, Option.some_inj] at h
    exact h ▸ .nil
  | cons f rest ih =>
    rw [advanceFields] at h
    cases h1 : advanceField f with
    | none => rw [h1] at h; simp at h
    | some f' =>
      cases h2 : advanceFields rest with
      | none => rw [h1, h2] at h; simp at h
      | some rest' =>
        rw [h1, h2, Option.some_inj] at h
        exact h ▸ .cons h1 (ih h2)

theorem advanceFields_eq_none_iff (l : List Field) :
    advanceFields l = none ↔ ∃ f ∈ l, advanceField f = none := by
  induction l with
  | nil => simp [advanceFields]
  | cons f rest ih =>
    rw [advanceFields]
    cases h1 : advanceField f with
    | none =>
      exact iff_of_true rfl ⟨f, List.mem_cons_self f rest, h1⟩
    | some f' =>
      cases h2 : advanceFields rest with
      | none =>
        obtain ⟨g, hg, hgn⟩ := ih.mp h2
        exact iff_of_true rfl ⟨g, List.mem_cons_of_mem f hg, hgn⟩
      | some rest' =>
        refine iff_of_false (fun hx => Option.noConfusion hx) ?_
        rintro ⟨g, hg, hgn⟩
        rcases List.mem_cons.mp hg with rfl | hg
        · rw [h1] at hgn
          exact Option.noConfusion hgn
        · have hnone : advanceFields rest = none := ih.mpr ⟨g, hg, hgn⟩
          rw [h2] at hnone
          exact Option.noConfusion hnone

/-! ### `harvestFields` characterization -/

theorem harvestFields_error {inv : List (String × ℤ)} {fid : Option ℤ}
    {l : List Field} {e : Unit} (h : harvestFields inv fid l = .error e) :
    ∃ f ∈ l, (fid = some f.id ∧ f.status = "Ready to Harvest") ∧
      ∀ c, f.crop = some c → dictGet? CROP_DATA c = none := by
  induction l with
  | nil => exact Except.noConfusion h
  | cons f rest ih =>
    by_cases hp : fid = some f.id ∧ f.status = "Ready to Harvest"
    · rw [harvestFields, if_pos hp] at h
      cases hcrop : f.crop with
      | none =>
        exact ⟨f, List.mem_cons_self f rest, hp,
          fun c hc => absurd (hcrop ▸ hc) (by simp)⟩
      | some c0 =>
        simp only [hcrop] at h
        cases hcd : dictGet? CROP_DATA c0 with
        | none =>
          refine ⟨f, List.mem_cons_self f rest, hp, fun c hc => ?_⟩
          rw [hcrop, Option.some_inj] at hc
          exact hc ▸ hcd
        | some ci => simp only [hcd] at h; exact Except.noConfusion h
    · rw [harvestFields, if_neg hp] at h
      cases hr : harvestFields inv fid rest with
      | error e' =>
        obtain ⟨g, hg, hgm, hgc⟩ := ih hr
        exact ⟨g, List.mem_cons_of_mem f hg, hgm, hgc⟩
      | ok r =>
        rw [hr] at h
        cases r with
        | none => exact Except.noConfusion h
        | some t =>
          obtain ⟨inv0, rest0, c0, y0⟩ := t
          exact Except.noConfusion h

theorem harvestFields_ok_none_iff (inv : List (String × ℤ)) (fid : Option ℤ)
    (l : List Field) :
    harvestFields inv fid l = .ok none ↔
      ∀ f ∈ l, ¬ (fid = some f.id ∧ f.status = "Ready to Harvest") := by
  induction l with
  | nil => simp [harvestFields]
  | cons f rest ih =>
    by_cases hp : fid = some f.id ∧ f.status = "Ready to Harvest"
    · refine iff_of_false ?_ (fun hall => hall f (List.mem_cons_self f rest) hp)
      rw [harvestFields, if_pos hp]
      cases hcrop : f.crop with
      | none => exact fun hx => Except.noConfusion hx
      | some c0 =>
        cases hcd : dictGet? CROP_DATA c0 with
        | none => intro hx; simp only [hcd] at hx; exact Except.noConfusion hx
        | some ci => intro hx; simp only [hcd] at hx; simp at hx
    · rw [harvestFields, if_neg hp]
      cases hr : harvestFields inv fid rest with
      | error e =>
        refine iff_of_false (fun hx => Except.noConfusion hx) ?_
        obtain ⟨g, hg, hgm, _⟩ := harvestFields_error hr
        exact fun hall => hall g (List.mem_cons_of_mem f hg) hgm
      | ok r =>
        cases r with
        | none =>
          refine iff_of_true rfl ?_
          intro g hg
          rcases List.mem_cons.mp hg with rfl | hg
          · exact hp
          · exact (ih.mp hr) g hg
        | some t =>
          obtain ⟨inv0, rest0, c0, y0⟩ := t
          refine iff_of_false (fun hx => by simp at hx) (fun hall => ?_)
          have : harvestFields inv fid rest = .ok none :=
            ih.mpr fun g hg => hall g (List.mem_cons_of_mem f hg)
          rw [hr] at this
          simp at this

theorem harvestFields_ok_some {inv inv' : List (String × ℤ)} {fid : Option ℤ}
    {l l' : List Field} {c : String} {y : ℤ}
    (h : harvestFields inv fid l = .ok (some (inv', l', c, y))) :
    ∃ l1 f l2 ci, l = l1 ++ f :: l2 ∧
      (∀ g ∈ l1, ¬ (fid = some g.id ∧ g.status = "Ready to Harvest")) ∧
      fid = some f.id ∧ f.status = "Ready to Harvest" ∧
      f.crop = some c ∧ dictGet? CROP_DATA c = some ci ∧ y = ci.yield ∧
      inv' = dictSet inv ("Harvested " ++ c)
        (dictGetD inv ("Harvested " ++ c) 0 + ci.yield) ∧
      l' = l1 ++ { f with crop := none, status := "Fallow", growth_stage := 0 } :: l2 := by
  induction l generalizing inv' l' c y with
  | nil => simp [harvestFields] at h
  | cons f rest ih =>
    by_cases hp : fid = some f.id ∧ f.status = "Ready to Harvest"
    · rw [harvestFields, if_pos hp] at h
      cases hcrop : f.crop with
      | none => simp only [hcrop] at h; exact Except.noConfusion h
      | some c0 =>
        simp only [hcrop] at h
        cases hcd : dictGet? CROP_DATA c0 with
        | none => simp only [hcd] at h; exact Except.noConfusion h
        | some ci =>
          simp only [hcd] at h
          simp only [Except.ok.injEq, Option.some.injEq, Prod.mk.injEq] at h
          obtain ⟨hinv, hl, hc, hy⟩ := h
          subst hc
          exact ⟨[], f, rest, ci, rfl, by simp, hp.1, hp.2, hcrop, hcd,
            hy.symm, hinv.symm, hl.symm⟩
    · rw [harvestFields, if_neg hp] at h
      cases hr : harvestFields inv fid rest with
      | error e => rw [hr] at h; exact Except.noConfusion h
      | ok r =>
        rw [hr] at h
        cases r with
        | none => simp at h
        | some t =>
          obtain ⟨inv0, rest0, c0, y0⟩ := t
          simp only [Except.ok.injEq, Option.some.injEq, Prod.mk.injEq] at h
          obtain ⟨hinv, hl, hc, hy⟩ := h
          subst hinv hc hy
          obtain ⟨l1, g, l2, ci, e1, e2, e3, e4, e5, e6, e7, e8, e9⟩ := ih hr
          refine ⟨f :: l1, g, l2, ci, by simp [e1], ?_, e3, e4, e5, e6, e7, e8,
            by simp [← hl, e9]⟩
          intro x hx
          rcases List.mem_cons.mp hx with rfl | hx
          · exact hp
          · exact e2 x hx

/-- Unfolding `advance_day` into its three effects. -/
theorem advance_day_eq_some {fresh : String → ℤ} {s s' : PlayerState}
    (h : advance_day fresh s = some s') :
    s'.current_day = s.current_day + 1 ∧
    s'.market_prices = s.market_prices.map (fun p => (p.1, fresh p.1)) ∧
    advanceFields s.fields = some s'.fields ∧
    s'.playerName = s.playerName ∧ s'.region = s.region ∧
    s'.region_info = s.region_info ∧ s'.currency = s.currency ∧
    s'.balance = s.balance ∧ s'.livestock = s.livestock ∧
    s'.inventory = s.inventory ∧ s'.active_quests = s.active_quests := by
  rw [advance_day] at h
  cases hf : advanceFields s.fields with
  | none => rw [hf] at h; simp at h
  | some fs =>
    rw [hf, Option.some_inj] at h
    subst h
    simp [hf]

/-- The Crop Catalog holds exactly Maize, with growth_time 5 and yield 10. -/
theorem CROP_DATA_lookup {c : String} {ci : CropInfo}
    (h : dictGet? CROP_DATA c = some ci) :
    c = "Maize" ∧ ci.growth_time = 5 ∧ ci.yield = 10 := by
  by_cases hc : "Maize" = c
  · subst hc
    simp [CROP_DATA, dictGet?] at h
    exact ⟨rfl, by rw [← h], by rw [← h]⟩
  · simp [CROP_DATA, dictGet?, hc] at h

/-! ### The claims -/

/-- C1: one call to `advance_day` treats every field as follows: a field with
a (truthy) crop and status Growing gains exactly one growth stage when its
water level exceeds 0.4 and none otherwise, and in both cases its water level
becomes `max 0 (water_level - 0.2)`; every other field is left completely
unchanged. -/
theorem C1_advance_day_growth_water (fresh : String → ℤ) (s s' : PlayerState)
    (h : advance_day fresh s = some s') :
    List.Forall₂ (fun f f' =>
      (truthyCrop f.crop = true ∧ f.status = "Growing" →
        (f.water_level > 0.4 → f'.growth_stage = f.growth_stage + 1) ∧
        (f.water_level ≤ 0.4 → f'.growth_stage = f.growth_stage) ∧
        f'.water_level = max 0 (f.water_level - 0.2)) ∧
      (¬ (truthyCrop f.crop = true ∧ f.status = "Growing") → f' = f))
      s.fields s'.fields := by
  obtain ⟨-, -, hf, -⟩ := advance_day_eq_some h
  refine List.Forall₂.imp ?_ (advanceFields_some hf)
  intro f f' hff
  constructor
  · rintro ⟨hc, hs⟩
    obtain ⟨ci, hcd, hgs, hwl, -, -, -, -⟩ := advanceField_growing hc hs hff
    refine ⟨fun hw => ?_, fun hw => ?_, hwl⟩
    · rw [hgs, if_pos hw]
    · rw [hgs, if_neg (not_lt.mpr hw)]
  · intro hng
    have hnf := advanceField_not_growing hng
    rw [hnf, Option.some_inj] at hff
    exact hff.symm

/-- C1 witness: on a fresh "Morogoro" farm (both fields Fallow), one
`advance_day` call satisfies the C1 per-field contract. -/
theorem C1_witness :
    List.Forall₂ (fun f f' =>
      (truthyCrop f.crop = true ∧ f.status = "Growing" →
        (f.water_level > 0.4 → f'.growth_stage = f.growth_stage + 1) ∧
        (f.water_level ≤ 0.4 → f'.growth_stage = f.growth_stage) ∧
        f'.water_level = max 0 (f.water_level - 0.2)) ∧
      (¬ (truthyCrop f.crop = true ∧ f.status = "Growing") → f' = f))
      (initialize_game_state "Amina" "Morogoro" 600).fields
      (initialize_game_state "Amina" "Morogoro" 600).fields :=
  C1_advance_day_growth_water (fun _ => 600)
    (initialize_game_state "Amina" "Morogoro" 600)
    { initialize_game_state "Amina" "Morogoro" 600 with
        current_day := 2, market_prices := [("Harvested Maize", 600)] }
    (by rfl)

/-- C2: whenever `advance_day` succeeds, every Growing field whose crop is in
the Crop Catalog and whose post-growth-step stage has reached the crop's
growth_time ends with status "Ready to Harvest", with its crop unchanged and
its growth_stage exactly the post-growth-step value. -/
theorem C2_advance_day_ready (fresh : String → ℤ) (s s' : PlayerState)
    (h : advance_day fresh s = some s') :
    List.Forall₂ (fun f f' =>
      ∀ c ci, f.crop = some c → dictGet? CROP_DATA c = some ci →
        f.status = "Growing" → f'.growth_stage ≥ ci.growth_time →
        f'.status = "Ready to Harvest" ∧ f'.crop = f.crop ∧
        f'.growth_stage =
          (if f.water_level > 0.4 then f.growth_stage + 1 else f.growth_stage))
      s.fields s'.fields := by
  obtain ⟨-, -, hf, -⟩ := advance_day_eq_some h
  refine List.Forall₂.imp ?_ (advanceFields_some hf)
  intro f f' hff c ci hcrop hcd hs hge
  obtain ⟨hcM, -, -⟩ := CROP_DATA_lookup hcd
  subst hcM
  have hc : truthyCrop f.crop = true := by rw [hcrop]; rfl
  obtain ⟨ci', hcd', hgs, -, hcrop', -, -, hstat⟩ := advanceField_growing hc hs hff
  simp only [hcrop, Option.getD_some] at hcd'
  have hci : ci' = ci := Option.some_inj.mp (hcd'.symm.trans hcd)
  subst hci
  refine ⟨?_, hcrop', hgs⟩
  rw [hstat, if_pos hge]

/-- C2 witness: on a farm with Field 1 Growing at stage 4 with full water,
one `advance_day` call satisfies the C2 per-field contract. -/
theorem C2_witness :
    List.Forall₂ (fun (f f' : Field) =>
      ∀ c ci, f.crop = some c → dictGet? CROP_DATA c = some ci →
        f.status = "Growing" → f'.growth_stage ≥ ci.growth_time →
        f'.status = "Ready to Harvest" ∧ f'.crop = f.crop ∧
        f'.growth_stage =
          (if f.water_level > 0.4 then f.growth_stage + 1 else f.growth_stage))
      ([ { id := 1, crop := some "Maize", status := "Growing", water_level := 1,
           growth_stage := 4, health := 100 } ] : List Field)
      ([ { id := 1, crop := some "Maize", status := "Ready to Harvest",
           water_level := 0.8, growth_stage := 5, health := 100 } ] : List Field) :=
  C2_advance_day_ready (fun _ => 600)
    { playerName := "Amina", region := "Morogoro",
      region_info := dictGet? REGIONS "Morogoro", currency := "TZS",
      balance := 50000, current_day := 1,
      fields := [ { id := 1, crop := some "Maize", status := "Growing",
                    water_level := 1, growth_stage := 4, health := 100 } ],
      livestock := [], inventory := [], active_quests := [],
      market_prices := [] }
    { playerName := "Amina", region := "Morogoro",
      region_info := dictGet? REGIONS "Morogoro", currency := "TZS",
      balance := 50000, current_day := 2,
      fields := [ { id := 1, crop := some "Maize", status := "Ready to Harvest",
                    water_level := 0.8, growth_stage := 5, health := 100 } ],
      livestock := [], inventory := [], active_quests := [],
      market_prices := [] }
    (by
      have ht : truthyCrop (some "Maize") = true := rfl
      norm_num [advance_day, advanceFields, advanceField, ht, dictGet?,
        CROP_DATA])

/-- C8: for every player name and every region in the Region Catalog, the
initializer produces balance 50000, day 1, exactly the two Fallow fields with
water 0.5 / stage 0 / health 100, the single Goats livestock group, the seeded
inventory, one "main_quest_1" quest whose description mentions the region
name, and a "Harvested Maize" market price equal to the rolled integer in
[500, 800]. -/
theorem C8_init_state (pn rn : String) (price : ℤ)
    (hlo : 500 ≤ price) (hhi : price ≤ 800)
    (hr : (dictGet? REGIONS rn).isSome = true) :
    (initialize_game_state pn rn price).balance = 50000 ∧
    (initialize_game_state pn rn price).current_day = 1 ∧
    (initialize_game_state pn rn price).fields =
      [ { id := 1, crop := none, status := "Fallow", water_level := 0.5,
          growth_stage := 0, health := 100 },
        { id := 2, crop := none, status := "Fallow", water_level := 0.5,
          growth_stage := 0, health := 100 } ] ∧
    (initialize_game_state pn rn price).livestock =
      [{ type := "Goats", count := 5, health := 90, feed_level := 0.7 }] ∧
    (initialize_game_state pn rn price).inventory =
      [("Maize Seed", 10), ("Fertilizer", 5), ("Goat Feed", 20),
        ("Harvested Maize", 0)] ∧
    (∃ q, (initialize_game_state pn rn price).active_quests = [q] ∧
      q.id = "main_quest_1" ∧ ∃ a b, q.description = a ++ rn ++ b) ∧
    dictGetD (initialize_game_state pn rn price).market_prices
      "Harvested Maize" 0 = price ∧
    500 ≤ price ∧ price ≤ 800 := by
  refine ⟨rfl, rfl, rfl, rfl, rfl, ⟨_, rfl, rfl,
    ⟨"Welcome to your farm in ",
     "! Let's get started by planting some maize. Select Field 1 and choose 'Plant'.",
     rfl⟩⟩, ?_, hlo, hhi⟩
  simp [initialize_game_state, dictGetD, dictGet?]

/-- C8 witness: the contract instantiated for player "Amina" in region
"Morogoro" with rolled price 600. -/
theorem C8_witness :
    (initialize_game_state "Amina" "Morogoro" 600).balance = 50000 ∧
    (initialize_game_state "Amina" "Morogoro" 600).current_day = 1 ∧
    (initialize_game_state "Amina" "Morogoro" 600).fields =
      [ { id := 1, crop := none, status := "Fallow", water_level := 0.5,
          growth_stage := 0, health := 100 },
        { id := 2, crop := none, status := "Fallow", water_level := 0.5,
          growth_stage := 0, health := 100 } ] ∧
    (initialize_game_state "Amina" "Morogoro" 600).livestock =
      [{ type := "Goats", count := 5, health := 90, feed_level := 0.7 }] ∧
    (initialize_game_state "Amina" "Morogoro" 600).inventory =
      [("Maize Seed", 10), ("Fertilizer", 5), ("Goat Feed", 20),
        ("Harvested Maize", 0)] ∧
    (∃ q, (initialize_game_state "Amina" "Morogoro" 600).active_quests = [q] ∧
      q.id = "main_quest_1" ∧ ∃ a b, q.description = a ++ "Morogoro" ++ b) ∧
    dictGetD (initialize_game_state "Amina" "Morogoro" 600).market_prices
      "Harvested Maize" 0 = 600 ∧
    (500 : ℤ) ≤ 600 ∧ (600 : ℤ) ≤ 800 :=
  C8_init_state "Amina" "Morogoro" 600 (by norm_num) (by norm_num) (by rfl)

/-- Unfolding a successful `doPlant` into its effects. -/
theorem doPlant_eq_some {s s' : PlayerState} {fid : Option ℤ}
    (h : doPlant s fid = some s') :
    dictGetD s.inventory "Maize Seed" 0 > 0 ∧
    plantFields fid s.fields = some s'.fields ∧
    s'.inventory = dictSet s.inventory "Maize Seed"
      (dictGetD s.inventory "Maize Seed" 0 - 1) ∧
    s'.balance = s.balance ∧ s'.playerName = s.playerName ∧
    s'.region = s.region ∧ s'.region_info = s.region_info ∧
    s'.currency = s.currency ∧ s'.current_day = s.current_day ∧
    s'.livestock = s.livestock ∧ s'.active_quests = s.active_quests ∧
    s'.market_prices = s.market_prices := by
  rw [doPlant] at h
  by_cases hseed : dictGetD s.inventory "Maize Seed" 0 > 0
  · rw [if_pos hseed] at h
    cases hpf : plantFields fid s.fields with
    | none => rw [hpf] at h; exact Option.noConfusion h
    | some fs =>
      simp only [hpf, Option.some_inj] at h
      subst h
      exact ⟨hseed, rfl, rfl, rfl, rfl, rfl, rfl, rfl, rfl, rfl, rfl, rfl⟩
  · rw [if_neg hseed] at h
    exact Option.noConfusion h

/-- C3: `plant(field_id)` succeeds iff the inventory holds at least one
"Maize Seed" and some field with that id is Fallow; a success plants Maize
(status Growing, stage 0) on the first such field and decrements the seed
count by exactly one, touching nothing else; a failure leaves the store
(hence the player state) untouched. -/
theorem C3_plant_contract (s : PlayerState) (fid : ℤ) :
    ((doPlant s (some fid)).isSome = true ↔
      (dictGetD s.inventory "Maize Seed" 0 > 0 ∧
        ∃ f ∈ s.fields, f.id = fid ∧ f.status = "Fallow")) ∧
    (∀ s', doPlant s (some fid) = some s' →
      (∃ l1 f l2, s.fields = l1 ++ f :: l2 ∧
        (∀ g ∈ l1, ¬ (g.id = fid ∧ g.status = "Fallow")) ∧
        f.id = fid ∧ f.status = "Fallow" ∧
        s'.fields = l1 ++
          { f with crop := some "Maize", status := "Growing", growth_stage := 0 } :: l2) ∧
      dictGetD s'.inventory "Maize Seed" 0 =
        dictGetD s.inventory "Maize Seed" 0 - 1 ∧
      (∀ k, k ≠ "Maize Seed" →
        dictGet? s'.inventory k = dictGet? s.inventory k) ∧
      s'.balance = s.balance ∧ s'.playerName = s.playerName ∧
      s'.region = s.region ∧ s'.current_day = s.current_day ∧
      s'.livestock = s.livestock ∧ s'.active_quests = s.active_quests ∧
      s'.market_prices = s.market_prices) ∧
    (∀ (fresh : String → ℤ) (store : Store) (pn : String),
      pn ≠ "" → dictGet? store pn = some s → doPlant s (some fid) = none →
      perform_action fresh store pn (.plant (some fid)) =
        .ok (store, ⟨false, "Action not recognized."⟩, none)) := by
  refine ⟨⟨?_, ?_⟩, ?_, ?_⟩
  · intro hs
    obtain ⟨s', hps⟩ := Option.isSome_iff_exists.mp hs
    obtain ⟨hseed, hpf, -⟩ := doPlant_eq_some hps
    rw [plantFields] at hpf
    obtain ⟨l1, f, l2, he, -, hp, -⟩ := updateFirst_eq_some _ _ _ _ hpf
    exact ⟨hseed, f, he ▸ List.mem_append.mpr (.inr (List.mem_cons_self f l2)),
      (Option.some_inj.mp hp.1).symm, hp.2⟩
  · rintro ⟨hseed, f, hf, hid, hstat⟩
    rw [doPlant, if_pos hseed]
    have hps : (plantFields (some fid) s.fields).isSome := by
      rw [plantFields, updateFirst_isSome_iff]
      exact ⟨f, hf, by rw [hid], hstat⟩
    obtain ⟨fs, hpf⟩ := Option.isSome_iff_exists.mp hps
    rw [hpf]
    rfl
  · intro s' hps
    obtain ⟨hseed, hpf, hinv, hbal, hpn, hreg, -, -, hday, hls, haq, hmp⟩ :=
      doPlant_eq_some hps
    rw [plantFields] at hpf
    obtain ⟨l1, f, l2, he, hl1, hp, hres⟩ := updateFirst_eq_some _ _ _ _ hpf
    refine ⟨⟨l1, f, l2, he, ?_, (Option.some_inj.mp hp.1).symm, hp.2, hres⟩,
      ?_, ?_, hbal, hpn, hreg, hday, hls, haq, hmp⟩
    · rintro g hg ⟨hgid, hgs⟩
      exact hl1 g hg ⟨by rw [hgid], hgs⟩
    · rw [hinv, dictGetD_dictSet_self]
    · intro k hk
      rw [hinv, dictGet?_dictSet_ne _ _ _ _ hk]
  · intro fresh store pn hpn hlook hfail
    simp only [perform_action, if_neg hpn, hlook, hfail]

/-- C3 witness: on a fresh "Morogoro" farm, plant(1) succeeds (10 seeds and
Field 1 is Fallow). -/
theorem C3_witness :
    (doPlant (initialize_game_state "Amina" "Morogoro" 600) (some 1)).isSome
      = true :=
  (C3_plant_contract (initialize_game_state "Amina" "Morogoro" 600) 1).1.mpr
    ⟨by decide, by decide⟩

/-- Unfolding a successful `doWater` into its effects. -/
theorem doWater_eq_some {s s' : PlayerState} {fid : Option ℤ}
    (h : doWater s fid = some s') :
    waterFields fid s.fields = some s'.fields ∧
    s'.balance = s.balance - 100 ∧
    s'.inventory = s.inventory ∧ s'.playerName = s.playerName ∧
    s'.region = s.region ∧ s'.region_info = s.region_info ∧
    s'.currency = s.currency ∧ s'.current_day = s.current_day ∧
    s'.livestock = s.livestock ∧ s'.active_quests = s.active_quests ∧
    s'.market_prices = s.market_prices := by
  rw [doWater] at h
  cases hwf : waterFields fid s.fields with
  | none => rw [hwf] at h; exact Option.noConfusion h
  | some fs =>
    simp only [hwf, Option.some_inj] at h
    subst h
    exact ⟨rfl, rfl, rfl, rfl, rfl, rfl, rfl, rfl, rfl, rfl, rfl⟩

/-- C5: for any state, `water(field_id)` succeeds exactly when a field with
that id exists (any status); a success sets that field's water level to
`min 1 (water_level + 0.4)` and unconditionally subtracts 100 from the
balance, with no balance check — the theorem has no hypothesis on the sign
of the balance, so the balance may go negative. -/
theorem C5_water_contract (s : PlayerState) (fid : ℤ) :
    ((doWater s (some fid)).isSome = true ↔ ∃ f ∈ s.fields, f.id = fid) ∧
    (∀ s', doWater s (some fid) = some s' →
      s'.balance = s.balance - 100 ∧
      (∃ l1 f l2, s.fields = l1 ++ f :: l2 ∧ (∀ g ∈ l1, g.id ≠ fid) ∧
        f.id = fid ∧
        s'.fields = l1 ++
          { f with water_level := min 1 (f.water_level + 0.4) } :: l2) ∧
      s'.inventory = s.inventory ∧ s'.current_day = s.current_day ∧
      s'.market_prices = s.market_prices ∧ s'.livestock = s.livestock ∧
      s'.playerName = s.playerName ∧ s'.active_quests = s.active_quests) := by
  constructor
  · constructor
    · intro hs
      obtain ⟨s', hws⟩ := Option.isSome_iff_exists.mp hs
      obtain ⟨hwf, -⟩ := doWater_eq_some hws
      rw [waterFields] at hwf
      obtain ⟨l1, f, l2, he, -, hp, -⟩ := updateFirst_eq_some _ _ _ _ hwf
      exact ⟨f, he ▸ List.mem_append.mpr (.inr (List.mem_cons_self f l2)),
        (Option.some_inj.mp hp).symm⟩
    · rintro ⟨f, hf, hid⟩
      rw [doWater]
      have hws : (waterFields (some fid) s.fields).isSome := by
        rw [waterFields, updateFirst_isSome_iff]
        exact ⟨f, hf, by rw [hid]⟩
      obtain ⟨fs, hwf⟩ := Option.isSome_iff_exists.mp hws
      rw [hwf]
      rfl
  · intro s' hws
    obtain ⟨hwf, hbal, hinv, hpn, hreg, -, -, hday, hls, haq, hmp⟩ :=
      doWater_eq_some hws
    rw [waterFields] at hwf
    obtain ⟨l1, f, l2, he, hl1, hp, hres⟩ := updateFirst_eq_some _ _ _ _ hwf
    refine ⟨hbal, ⟨l1, f, l2, he, ?_, (Option.some_inj.mp hp).symm, hres⟩,
      hinv, hday, hmp, hls, hpn, haq⟩
    intro g hg hgid
    exact hl1 g hg (by rw [hgid])

/-- A one-field demo state with balance 0, for the C5 witness. -/
def waterDemo : PlayerState :=
  { playerName := "Amina", region := "Morogoro",
    region_info := dictGet? REGIONS "Morogoro", currency := "TZS",
    balance := 0, current_day := 1,
    fields := [ { id := 1, crop := none, status := "Fallow", water_level := 0.5, growth_stage := 0, health := 100 } ],
    livestock := [], inventory := [], active_quests := [], market_prices := [] }

/-- `waterDemo` after watering Field 1: water at 0.9, balance negative. -/
def waterDemoAfter : PlayerState :=
  { playerName := "Amina", region := "Morogoro",
    region_info := dictGet? REGIONS "Morogoro", currency := "TZS",
    balance := -100, current_day := 1,
    fields := [ { id := 1, crop := none, status := "Fallow", water_level := 0.9, growth_stage := 0, health := 100 } ],
    livestock := [], inventory := [], active_quests := [], market_prices := [] }

/-- C5 witness: watering Field 1 of a zero-balance farm succeeds and drives
the balance to −100. -/
theorem C5_witness :
    waterDemoAfter.balance = waterDemo.balance - 100 ∧
    doWater waterDemo (some 1) = some waterDemoAfter := by
  have h : doWater waterDemo (some 1) = some waterDemoAfter := by
    norm_num [doWater, waterFields, updateFirst, waterDemo, waterDemoAfter,
      min_def]
  exact ⟨((C5_water_contract waterDemo 1).2 waterDemoAfter h).1, h⟩

/-- Unfolding a successful `doHarvest` into its effects. -/
theorem doHarvest_eq_ok {s s' : PlayerState} {fid : Option ℤ} {c : String}
    {y : ℤ} (h : doHarvest s fid = .ok (some (s', c, y))) :
    harvestFields s.inventory fid s.fields =
      .ok (some (s'.inventory, s'.fields, c, y)) ∧
    s'.balance = s.balance ∧ s'.playerName = s.playerName ∧
    s'.region = s.region ∧ s'.region_info = s.region_info ∧
    s'.currency = s.currency ∧ s'.current_day = s.current_day ∧
    s'.livestock = s.livestock ∧ s'.active_quests = s.active_quests ∧
    s'.market_prices = s.market_prices := by
  rw [doHarvest] at h
  cases hh : harvestFields s.inventory fid s.fields with
  | error e => rw [hh] at h; exact Except.noConfusion h
  | ok r =>
    rw [hh] at h
    cases r with
    | none => simp at h
    | some t =>
      obtain ⟨inv', fs, c0, y0⟩ := t
      simp only [Except.ok.injEq, Option.some.injEq, Prod.mk.injEq] at h
      obtain ⟨hs', hc, hy⟩ := h
      subst hc hy hs'
      exact ⟨rfl, rfl, rfl, rfl, rfl, rfl, rfl, rfl, rfl, rfl⟩

/-- C4: under the (reachability) assumption that every Ready-to-Harvest field
carries a catalogued crop, `harvest(field_id)` succeeds exactly when a field
with that id is "Ready to Harvest"; a success adds the crop's configured
yield (10 for Maize) to the `"Harvested <crop>"` inventory entry and resets
the first such field to crop None / Fallow / stage 0 — `{f with ...}` keeps
its `water_level` and `health` — touching nothing else. -/
theorem C4_harvest_contract (s : PlayerState) (fid : ℤ)
    (hWF : ∀ f ∈ s.fields, f.status = "Ready to Harvest" →
      ∃ c ci, f.crop = some c ∧ dictGet? CROP_DATA c = some ci) :
    ((∃ r, doHarvest s (some fid) = .ok (some r)) ↔
      ∃ f ∈ s.fields, f.id = fid ∧ f.status = "Ready to Harvest") ∧
    (∀ s' c y, doHarvest s (some fid) = .ok (some (s', c, y)) →
      ∃ l1 f l2 ci, s.fields = l1 ++ f :: l2 ∧
        (∀ g ∈ l1, ¬ (g.id = fid ∧ g.status = "Ready to Harvest")) ∧
        f.id = fid ∧ f.status = "Ready to Harvest" ∧ f.crop = some c ∧
        dictGet? CROP_DATA c = some ci ∧ y = ci.yield ∧ (c = "Maize" → y = 10) ∧
        s'.fields = l1 ++
          { f with crop := none, status := "Fallow", growth_stage := 0 } :: l2 ∧
        dictGetD s'.inventory ("Harvested " ++ c) 0 =
          dictGetD s.inventory ("Harvested " ++ c) 0 + y ∧
        (∀ k, k ≠ "Harvested " ++ c →
          dictGet? s'.inventory k = dictGet? s.inventory k) ∧
        s'.balance = s.balance ∧ s'.current_day = s.current_day ∧
        s'.market_prices = s.market_prices ∧ s'.livestock = s.livestock ∧
        s'.playerName = s.playerName ∧ s'.active_quests = s.active_quests) := by
  constructor
  · constructor
    · rintro ⟨⟨s', c, y⟩, hok⟩
      obtain ⟨hh, -⟩ := doHarvest_eq_ok hok
      obtain ⟨l1, f, l2, ci, he, -, hid, hstat, -⟩ := harvestFields_ok_some hh
      exact ⟨f, he ▸ List.mem_append.mpr (.inr (List.mem_cons_self f l2)),
        (Option.some_inj.mp hid).symm, hstat⟩
    · rintro ⟨f, hf, hid, hstat⟩
      rw [doHarvest]
      cases hh : harvestFields s.inventory (some fid) s.fields with
      | error e =>
        obtain ⟨g, hg, hgm, hgc⟩ := harvestFields_error hh
        obtain ⟨c, ci, hgcrop, hgcd⟩ := hWF g hg hgm.2
        rw [hgc c hgcrop] at hgcd
        exact Option.noConfusion hgcd
      | ok r =>
        cases r with
        | none =>
          rw [harvestFields_ok_none_iff] at hh
          exact absurd ⟨by rw [hid], hstat⟩ (hh f hf)
        | some t =>
          obtain ⟨inv', fs, c, y⟩ := t
          exact ⟨({ s with inventory := inv', fields := fs }, c, y), by simp⟩
  · intro s' c y hok
    obtain ⟨hh, hbal, hpn, hreg, -, -, hday, hls, haq, hmp⟩ := doHarvest_eq_ok hok
    obtain ⟨l1, f, l2, ci, he, hl1, hid, hstat, hcrop, hcd, hy, hinv, hfs⟩ :=
      harvestFields_ok_some hh
    refine ⟨l1, f, l2, ci, he, ?_, (Option.some_inj.mp hid).symm, hstat, hcrop,
      hcd, hy, ?_, hfs, ?_, ?_, hbal, hday, hmp, hls, hpn, haq⟩
    · rintro g hg ⟨hgid, hgs⟩
      exact hl1 g hg ⟨by rw [hgid], hgs⟩
    · intro hcM
      rw [hy]
      exact (CROP_DATA_lookup hcd).2.2
    · rw [hinv, dictGetD_dictSet_self, hy]
    · intro k hk
      rw [hinv, dictGet?_dictSet_ne _ _ _ _ hk]

/-- A demo state with Field 1 ready to harvest, for the C4 witness. -/
def harvestDemo : PlayerState :=
  { playerName := "Amina", region := "Morogoro",
    region_info := dictGet? REGIONS "Morogoro", currency := "TZS",
    balance := 0, current_day := 6,
    fields := [ { id := 1, crop := some "Maize", status := "Ready to Harvest", water_level := 0.8, growth_stage := 5, health := 100 } ],
    livestock := [], inventory := [("Harvested Maize", 0)], active_quests := [],
    market_prices := [] }

/-- C4 witness: harvesting the ready Field 1 of the demo state succeeds. -/
theorem C4_witness :
    ∃ r, doHarvest harvestDemo (some 1) = Except.ok (some r) :=
  (C4_harvest_contract harvestDemo 1 (by
      intro f hf hst
      simp only [harvestDemo, List.mem_singleton] at hf
      subst hf
      exact ⟨"Maize", ⟨5, 10⟩, rfl, rfl⟩)).1.mpr (by decide)

/-! ### Reachability invariants -/

/-- The per-field well-formedness invariant maintained by every action:
crop presence matches status, Fallow fields are at stage 0, crops are only
`None` or `"Maize"`, and the water level stays in `[0, 1]`. -/
def fieldWF (f : Field) : Prop :=
  (f.crop.isSome = true ↔ (f.status = "Growing" ∨ f.status = "Ready to Harvest")) ∧
  (f.status = "Fallow" → f.growth_stage = 0) ∧
  (f.crop = none ∨ f.crop = some "Maize") ∧
  0 ≤ f.water_level ∧ f.water_level ≤ 1

/-- All fields of a state are well-formed. -/
def stateWF (s : PlayerState) : Prop := ∀ f ∈ s.fields, fieldWF f

theorem forall₂_mem_right {R : Field → Field → Prop} {l l' : List Field}
    (h : List.Forall₂ R l l') {f' : Field} (hf' : f' ∈ l') :
    ∃ f ∈ l, R f f' := by
  induction h with
  | nil => cases hf'
  | cons hr hrest ih =>
    rcases List.mem_cons.mp hf' with rfl | hm
    · exact ⟨_, List.mem_cons_self _ _, hr⟩
    · obtain ⟨f, hf, hR⟩ := ih hm
      exact ⟨f, List.mem_cons_of_mem _ hf, hR⟩

theorem truthy_isSome {o : Option String} (h : truthyCrop o = true) :
    o.isSome = true := by
  cases o with
  | none => exact absurd h (by simp [truthyCrop])
  | some c => rfl

theorem stateWF_init (pn rn : String) (price : ℤ) :
    stateWF (initialize_game_state pn rn price) := by
  intro f hf
  have hcases : f = { id := 1, crop := none, status := "Fallow", water_level := 0.5, growth_stage := 0, health := 100 } ∨
      f = { id := 2, crop := none, status := "Fallow", water_level := 0.5, growth_stage := 0, health := 100 } := by
    simpa [initialize_game_state] using hf
  rcases hcases with rfl | rfl <;>
    exact ⟨by decide, fun _ => rfl, Or.inl rfl, by norm_num, by norm_num⟩

theorem fieldWF_advanceField {f f' : Field} (hwf : fieldWF f)
    (hff : advanceField f = some f') : fieldWF f' := by
  by_cases hg : truthyCrop f.crop = true ∧ f.status = "Growing"
  · obtain ⟨ci, hcd, hgs, hwl, hcrop, -, -, hstat⟩ :=
      advanceField_growing hg.1 hg.2 hff
    have hstat2 : f'.status = "Ready to Harvest" ∨ f'.status = "Growing" := by
      rw [hstat]
      by_cases hge : f'.growth_stage ≥ ci.growth_time
      · exact Or.inl (if_pos hge)
      · exact Or.inr (if_neg hge)
    refine ⟨⟨fun _ => ?_, fun _ => ?_⟩, ?_, ?_, ?_, ?_⟩
    · rcases hstat2 with h2 | h2
      · exact Or.inr h2
      · exact Or.inl h2
    · rw [hcrop]
      exact truthy_isSome hg.1
    · intro hfal
      rcases hstat2 with h2 | h2 <;> rw [hfal] at h2 <;> exact absurd h2 (by decide)
    · rw [hcrop]
      exact hwf.2.2.1
    · rw [hwl]
      exact le_max_left 0 _
    · rw [hwl]
      refine max_le (by norm_num) ?_
      have := hwf.2.2.2.2
      linarith
  · rw [advanceField_not_growing hg, Option.some_inj] at hff
    exact hff ▸ hwf

theorem stateWF_step {s s' : PlayerState} (hwf : stateWF s) (hstep : Step s s') :
    stateWF s' := by
  cases hstep with
  | next_day fresh h =>
    obtain ⟨-, -, hf, -⟩ := advance_day_eq_some h
    intro f' hf'
    obtain ⟨f, hfm, hff⟩ := forall₂_mem_right (advanceFields_some hf) hf'
    exact fieldWF_advanceField (hwf f hfm) hff
  | plant fid h =>
    obtain ⟨-, hpf, -⟩ := doPlant_eq_some h
    rw [plantFields] at hpf
    obtain ⟨l1, f, l2, he, -, hp, hres⟩ := updateFirst_eq_some _ _ _ _ hpf
    intro f' hf'
    rw [hres] at hf'
    rcases List.mem_append.mp hf' with hf1 | hf1
    · exact hwf f' (by rw [he]; exact List.mem_append.mpr (Or.inl hf1))
    · rcases List.mem_cons.mp hf1 with rfl | hf2
      · have hold := hwf f
          (by rw [he]; exact List.mem_append.mpr (Or.inr (List.mem_cons_self f l2)))
        exact ⟨⟨fun _ => Or.inl rfl, fun _ => rfl⟩,
          fun hfal => absurd hfal
            (show ¬ ("Growing" : String) = "Fallow" from by decide),
          Or.inr rfl, hold.2.2.2.1, hold.2.2.2.2⟩
      · exact hwf f'
          (by rw [he]; exact List.mem_append.mpr (Or.inr (List.mem_cons_of_mem f hf2)))
  | water fid h =>
    obtain ⟨hwfields, -⟩ := doWater_eq_some h
    rw [waterFields] at hwfields
    obtain ⟨l1, f, l2, he, -, hp, hres⟩ := updateFirst_eq_some _ _ _ _ hwfields
    intro f' hf'
    rw [hres] at hf'
    rcases List.mem_append.mp hf' with hf1 | hf1
    · exact hwf f' (by rw [he]; exact List.mem_append.mpr (Or.inl hf1))
    · rcases List.mem_cons.mp hf1 with rfl | hf2
      · have hold := hwf f
          (by rw [he]; exact List.mem_append.mpr (Or.inr (List.mem_cons_self f l2)))
        refine ⟨hold.1, hold.2.1, hold.2.2.1, ?_, ?_⟩
        · exact le_min (by norm_num) (by linarith [hold.2.2.2.1])
        · exact min_le_left 1 _
      · exact hwf f'
          (by rw [he]; exact List.mem_append.mpr (Or.inr (List.mem_cons_of_mem f hf2)))
  | harvest fid c y h =>
    obtain ⟨hh, -⟩ := doHarvest_eq_ok h
    obtain ⟨l1, f, l2, ci, he, -, -, -, -, -, -, -, hfs⟩ := harvestFields_ok_some hh
    intro f' hf'
    rw [hfs] at hf'
    rcases List.mem_append.mp hf' with hf1 | hf1
    · exact hwf f' (by rw [he]; exact List.mem_append.mpr (Or.inl hf1))
    · rcases List.mem_cons.mp hf1 with rfl | hf2
      · have hold := hwf f
          (by rw [he]; exact List.mem_append.mpr (Or.inr (List.mem_cons_self f l2)))
        exact ⟨show ((none : Option String).isSome = true ↔
            (("Fallow" : String) = "Growing" ∨
             ("Fallow" : String) = "Ready to Harvest")) from by decide,
          fun _ => rfl, Or.inl rfl, hold.2.2.2.1, hold.2.2.2.2⟩
      · exact hwf f'
          (by rw [he]; exact List.mem_append.mpr (Or.inr (List.mem_cons_of_mem f hf2)))

/-- Every reachable state is well-formed. -/
theorem reachable_wf {s : PlayerState} (h : Reachable s) : stateWF s := by
  induction h with
  | init pn rn price => exact stateWF_init pn rn price
  | step hr hstep ih => exact stateWF_step ih hstep

/-- C6: in every state reachable from a fresh game via the four actions,
every field has a crop exactly when its status is Growing or Ready to
Harvest, and every Fallow field is at growth_stage 0 (so any action that
returns a field to Fallow has reset its stage to 0). -/
theorem C6_crop_status_invariant (s : PlayerState) (h : Reachable s) :
    ∀ f ∈ s.fields,
      (f.crop.isSome = true ↔
        (f.status = "Growing" ∨ f.status = "Ready to Harvest")) ∧
      (f.status = "Fallow" → f.growth_stage = 0) :=
  fun f hf => ⟨(reachable_wf h f hf).1, (reachable_wf h f hf).2.1⟩

/-- C6 witness: the invariant instantiated at Field 1 of a fresh game. -/
theorem C6_witness :
    (({ id := 1, crop := none, status := "Fallow", water_level := 0.5, growth_stage := 0, health := 100 } : Field).crop.isSome = true ↔
      (({ id := 1, crop := none, status := "Fallow", water_level := 0.5, growth_stage := 0, health := 100 } : Field).status = "Growing" ∨
       ({ id := 1, crop := none, status := "Fallow", water_level := 0.5, growth_stage := 0, health := 100 } : Field).status = "Ready to Harvest")) ∧
    (({ id := 1, crop := none, status := "Fallow", water_level := 0.5, growth_stage := 0, health := 100 } : Field).status = "Fallow" →
      ({ id := 1, crop := none, status := "Fallow", water_level := 0.5, growth_stage := 0, health := 100 } : Field).growth_stage = 0) :=
  C6_crop_status_invariant _ (Reachable.init "Amina" "Morogoro" 600) _
    (by simp [initialize_game_state])

/-- `advance_day` fails exactly when the per-field loop fails on some field. -/
theorem advance_day_eq_none_iff (fresh : String → ℤ) (s : PlayerState) :
    advance_day fresh s = none ↔ advanceFields s.fields = none := by
  simp only [advance_day]
  cases hf : advanceFields s.fields with
  | none => simp [hf]
  | some fs => simp [hf]

/-- C7: `advance_day` can fail only when some field with a (truthy) crop and
status Growing has a crop missing from the Crop Catalog, and from any
reachable state that never happens — `next_day` always succeeds, because
`plant` only ever plants Maize, which is in the catalog. -/
theorem C7_next_day_total :
    (∀ (fresh : String → ℤ) (s : PlayerState),
      advance_day fresh s = none ↔
        ∃ f ∈ s.fields, truthyCrop f.crop = true ∧ f.status = "Growing" ∧
          dictGet? CROP_DATA (f.crop.getD "") = none) ∧
    (∀ s : PlayerState, Reachable s →
      ∀ fresh : String → ℤ, ∃ s', advance_day fresh s = some s') := by
  constructor
  · intro fresh s
    rw [advance_day_eq_none_iff, advanceFields_eq_none_iff]
    constructor
    · rintro ⟨f, hf, hn⟩
      exact ⟨f, hf, (advanceField_eq_none_iff f).mp hn⟩
    · rintro ⟨f, hf, hn⟩
      exact ⟨f, hf, (advanceField_eq_none_iff f).mpr hn⟩
  · intro s hreach fresh
    cases hd : advance_day fresh s with
    | some s' => exact ⟨s', rfl⟩
    | none =>
      exfalso
      rw [advance_day_eq_none_iff, advanceFields_eq_none_iff] at hd
      obtain ⟨f, hf, hn⟩ := hd
      obtain ⟨hc, hs, hcd⟩ := (advanceField_eq_none_iff f).mp hn
      rcases (reachable_wf hreach f hf).2.2.1 with hcrop | hcrop
      · rw [hcrop] at hc
        exact absurd hc (by simp [truthyCrop])
      · rw [hcrop] at hcd
        exact Option.noConfusion ((by rfl : dictGet? CROP_DATA ((some "Maize").getD "") = some { growth_time := 5, yield := 10 }).symm.trans hcd)

/-- C7 witness: `next_day` succeeds on a fresh game. -/
theorem C7_witness :
    ∃ s', advance_day (fun _ => 600)
      (initialize_game_state "Amina" "Morogoro" 600) = some s' :=
  C7_next_day_total.2 _ (Reachable.init "Amina" "Morogoro" 600) (fun _ => 600)

/-- C10: in every reachable state, every field's water level lies in the
closed interval [0, 1]: it starts at 0.5, watering clamps at 1 with `min`,
and day advancement clamps at 0 with `max`. -/
theorem C10_water_level_bounds (s : PlayerState) (h : Reachable s) :
    ∀ f ∈ s.fields, 0 ≤ f.water_level ∧ f.water_level ≤ 1 :=
  fun f hf => (reachable_wf h f hf).2.2.2

/-- C10 witness: the bounds instantiated at Field 1 of a fresh game. -/
theorem C10_witness :
    0 ≤ ({ id := 1, crop := none, status := "Fallow", water_level := 0.5, growth_stage := 0, health := 100 } : Field).water_level ∧
    ({ id := 1, crop := none, status := "Fallow", water_level := 0.5, growth_stage := 0, health := 100 } : Field).water_level ≤ 1 :=
  C10_water_level_bounds _ (Reachable.init "Amina" "Morogoro" 600) _
    (by simp [initialize_game_state])

/-- C9: a dispatch that fails leaves the store untouched: an unknown player
name yields the "Player not found." failure with the store returned as-is
(no entry created), and any normally-returned failure outcome comes with the
store unchanged. -/
theorem C9_failure_store_unchanged (fresh : String → ℤ) (store : Store)
    (pn : String) (act : Action) :
    (dictGet? store pn = none →
      perform_action fresh store pn act =
        .ok (store, ⟨false, "Player not found."⟩, none)) ∧
    (∀ store' out ns,
      perform_action fresh store pn act = .ok (store', out, ns) →
      out.success = false → store' = store) := by
  constructor
  · intro hlook
    by_cases hpn : pn = ""
    · rw [perform_action, if_pos hpn]
    · rw [perform_action, if_neg hpn]
      simp only [hlook]
  · intro store' out ns h hfalse
    rw [perform_action] at h
    by_cases hpn : pn = ""
    · rw [if_pos hpn] at h
      simp only [Except.ok.injEq, Prod.mk.injEq] at h
      exact h.1.symm
    · rw [if_neg hpn] at h
      cases hlook : dictGet? store pn with
      | none =>
        simp only [hlook, Except.ok.injEq, Prod.mk.injEq] at h
        exact h.1.symm
      | some s =>
        simp only [hlook] at h
        cases act with
        | next_day =>
          cases had : advance_day fresh s with
          | none =>
            simp only [had] at h
            exact Except.noConfusion h
          | some s2 =>
            simp only [had, Except.ok.injEq, Prod.mk.injEq] at h
            rw [← h.2.1] at hfalse
            exact absurd hfalse (by simp)
        | plant fid =>
          cases hdp : doPlant s fid with
          | none =>
            simp only [hdp, Except.ok.injEq, Prod.mk.injEq] at h
            exact h.1.symm
          | some s2 =>
            simp only [hdp, Except.ok.injEq, Prod.mk.injEq] at h
            rw [← h.2.1] at hfalse
            exact absurd hfalse (by simp)
        | water fid =>
          cases hdw : doWater s fid with
          | none =>
            simp only [hdw, Except.ok.injEq, Prod.mk.injEq] at h
            exact h.1.symm
          | some s2 =>
            simp only [hdw, Except.ok.injEq, Prod.mk.injEq] at h
            rw [← h.2.1] at hfalse
            exact absurd hfalse (by simp)
        | harvest fid =>
          cases hdh : doHarvest s fid with
          | error e =>
            simp only [hdh] at h
            exact Except.noConfusion h
          | ok r =>
            cases r with
            | none =>
              simp only [hdh, Except.ok.injEq, Prod.mk.injEq] at h
              exact h.1.symm
            | some t =>
              obtain ⟨s2, c, y⟩ := t
              simp only [hdh, Except.ok.injEq, Prod.mk.injEq] at h
              rw [← h.2.1] at hfalse
              exact absurd hfalse (by simp)
        | other name =>
          simp only [Except.ok.injEq, Prod.mk.injEq] at h
          exact h.1.symm

/-- C9 witness: an action for an unknown player on the empty store fails
with "Player not found." and the store stays empty. -/
theorem C9_witness :
    perform_action (fun _ => 600) [] "Ghost" Action.next_day =
      Except.ok ([], ⟨false, "Player not found."⟩, none) :=
  (C9_failure_store_unchanged (fun _ => 600) [] "Ghost" Action.next_day).1 rfl

end Farm
